import Mathlib

/-!
Shallow embedding of the clip-planning and portrait-export logic of
`src/src/components/ClipCreator.tsx`.  Machine floats are modelled as exact
rationals (`ℚ`); the possibly non-terminating auto-slice `while` loop is
modelled with explicit fuel returning `Option`; the stateful export job and
the UI session are modelled as explicit state-passing step functions.
-/

namespace VideoCliper

/-- A draft clip segment (`interface ClipSegment`, ClipCreator.tsx lines 11-15):
start offset, duration (seconds) and a title. -/
structure ClipSegment where
  start : ℚ
  duration : ℚ
  title : String
deriving DecidableEq, Repr

/-- Title given to the clip pushed when `newClips.length + 1 = n`
(ClipCreator.tsx line 72): the string Clip followed by the 1-based index. -/
def clipTitle (n : Nat) : String := "Clip " ++ toString n

/-! ## Auto slicing (`autoGenerateClips`, ClipCreator.tsx lines 63-78)

The source is a `while (currentTime < video.duration)` loop that pushes a
segment of length `min(clipDuration, video.duration - currentTime)` and
advances `currentTime` by that length.  The loop need not terminate (for a
non-positive `clipDuration` the cursor never advances toward the total), so
it is embedded with explicit fuel: `none` means the fuel ran out with the
loop guard still true. -/

/-- One fuel-indexed unfolding of the `while` loop body: `cursor` is
`currentTime`, `n` is `newClips.length + 1` for the next pushed clip. -/
def autoGenerateClipsLoop (total slice : ℚ) : Nat → ℚ → Nat → Option (List ClipSegment)
  | 0, cursor, _ => if cursor < total then none else some []
  | fuel + 1, cursor, n =>
    if cursor < total then
      match autoGenerateClipsLoop total slice fuel (cursor + min slice (total - cursor)) (n + 1) with
      | none => none
      | some rest =>
        some ({ start := cursor
                duration := min slice (total - cursor)
                title := clipTitle n } :: rest)
    else some []

/-- `autoGenerateClips` run from `currentTime = 0` with an empty `newClips`
list (ClipCreator.tsx lines 63-78), with `fuel` iterations available. -/
def autoGenerateClips (total slice : ℚ) (fuel : Nat) : Option (List ClipSegment) :=
  autoGenerateClipsLoop total slice fuel 0 1

/-- Closed form of the slices emitted from a given cursor: segment `i` starts
at `cursor + i * slice` and takes the smaller of `slice` and the remainder. -/
def autoSliceSegments (total slice cursor : ℚ) (n k : Nat) : List ClipSegment :=
  (List.range k).map fun (i : Nat) =>
    { start := cursor + (i : ℚ) * slice
      duration := min slice (total - (cursor + (i : ℚ) * slice))
      title := clipTitle (n + i) }

lemma autoSliceSegments_succ (total slice cursor : ℚ) (n k : Nat) :
    autoSliceSegments total slice cursor n (k + 1) =
      { start := cursor
        duration := min slice (total - cursor)
        title := clipTitle n } ::
        autoSliceSegments total slice (cursor + slice) (n + 1) k := by
  unfold autoSliceSegments
  rw [List.range_succ_eq_map, List.map_cons, List.map_map]
  congr 1
  · simp
  · apply List.map_congr_left
    intro i _
    simp only [Function.comp_apply, ClipSegment.mk.injEq]
    refine ⟨by push_cast; ring, ?_, ?_⟩
    · congr 1
      push_cast
      ring
    · have h : n + (i + 1) = n + 1 + i := by omega
      rw [h]

/-- The loop, given enough fuel and a positive slice length, computes the
closed form with `⌈(total - cursor) / slice⌉` segments. -/
lemma autoGenerateClipsLoop_eq_closed (total slice : ℚ) (hs : 0 < slice) :
    ∀ fuel : Nat, ∀ cursor : ℚ, ∀ n : Nat,
      (⌈(total - cursor) / slice⌉).toNat ≤ fuel →
      autoGenerateClipsLoop total slice fuel cursor n =
        some (autoSliceSegments total slice cursor n (⌈(total - cursor) / slice⌉).toNat) := by
  intro fuel
  induction fuel with
  | zero =>
    intro cursor n hf
    have hle : ⌈(total - cursor) / slice⌉ ≤ 0 := by omega
    have hq : (total - cursor) / slice ≤ 0 := by
      calc (total - cursor) / slice ≤ (⌈(total - cursor) / slice⌉ : ℚ) := Int.le_ceil _
        _ ≤ 0 := by exact_mod_cast hle
    have hct : ¬ cursor < total := by
      have := (div_nonpos_iff.mp hq)
      rcases this with ⟨_, h2⟩ | ⟨h1, _⟩
      · linarith
      · linarith
    have hk : (⌈(total - cursor) / slice⌉).toNat = 0 := by omega
    simp [autoGenerateClipsLoop, hct, hk, autoSliceSegments]
  | succ f ih =>
    intro cursor n hf
    by_cases hc : cursor < total
    · have hx : 0 < total - cursor := by linarith
      have hpos : 0 < ⌈(total - cursor) / slice⌉ :=
        Int.lt_ceil.mpr (by exact_mod_cast div_pos hx hs)
      rcases le_or_lt slice (total - cursor) with hms | hms
      · have hmin : min slice (total - cursor) = slice := min_eq_left hms
        have hshift : ⌈(total - (cursor + slice)) / slice⌉ =
            ⌈(total - cursor) / slice⌉ - 1 := by
          have h1 : total - (cursor + slice) = (total - cursor) - slice := by ring
          rw [h1, sub_div, div_self (ne_of_gt hs)]
          exact Int.ceil_sub_one _
        have hfle : (⌈(total - (cursor + slice)) / slice⌉).toNat ≤ f := by
          rw [hshift]; omega
        have hrec := ih (cursor + slice) (n + 1) hfle
        have hk : (⌈(total - cursor) / slice⌉).toNat =
            (⌈(total - (cursor + slice)) / slice⌉).toNat + 1 := by
          rw [hshift]; omega
        simp only [autoGenerateClipsLoop, if_pos hc, hmin, hrec]
        rw [hk, autoSliceSegments_succ, hmin]
      · have hmin : min slice (total - cursor) = total - cursor :=
          min_eq_right (le_of_lt hms)
        have hone : ⌈(total - cursor) / slice⌉ = 1 := by
          have hle1 : (total - cursor) / slice ≤ 1 := by
            rw [div_le_one hs]; linarith
          have : ⌈(total - cursor) / slice⌉ ≤ 1 :=
            Int.ceil_le.mpr (by exact_mod_cast hle1)
          omega
        have hzero : ⌈(total - (cursor + (total - cursor))) / slice⌉ = 0 := by
          have h1 : total - (cursor + (total - cursor)) = 0 := by ring
          rw [h1, zero_div, Int.ceil_zero]
        have hrec := ih (cursor + (total - cursor)) (n + 1) (by rw [hzero]; omega)
        simp only [autoGenerateClipsLoop, if_pos hc, hmin, hrec]
        rw [hone]
        simp only [Int.toNat_one, autoSliceSegments_succ, hzero]
        simp [autoSliceSegments, hmin]
    · have hq : (total - cursor) / slice ≤ 0 :=
        div_nonpos_of_nonpos_of_nonneg (by linarith) (le_of_lt hs)
      have hle : ⌈(total - cursor) / slice⌉ ≤ 0 :=
        Int.ceil_le.mpr (by exact_mod_cast hq)
      have hk : (⌈(total - cursor) / slice⌉).toNat = 0 := by omega
      simp [autoGenerateClipsLoop, hc, hk, autoSliceSegments]

lemma autoSliceSegments_length (total slice cursor : ℚ) (n k : Nat) :
    (autoSliceSegments total slice cursor n k).length = k := by
  simp [autoSliceSegments]

lemma autoSliceSegments_get (total slice cursor : ℚ) (n k i : Nat)
    (hi : i < (autoSliceSegments total slice cursor n k).length) :
    (autoSliceSegments total slice cursor n k).get ⟨i, hi⟩ =
      { start := cursor + (i : ℚ) * slice
        duration := min slice (total - (cursor + (i : ℚ) * slice))
        title := clipTitle (n + i) } := by
  simp [autoSliceSegments]

/-- Claim C1: for positive total duration and slice length (and enough fuel
for the loop to finish), `autoGenerateClips` returns a list of segments whose
count is the ceiling of total/slice, whose starts are `i * slice` (hence
strictly increasing), whose half-open intervals tile `[0, total)` exactly
(positive durations, each at most `slice`, contiguous, with the last segment
ending at `total`), and whose titles are Clip n with 1-based numbering; a
non-positive total yields the empty list; and total 95 with slice 30 yields
exactly the four segments starting at 0, 30, 60, 90 with durations
30, 30, 30, 5. -/
theorem autoGenerateClips_partition :
    (∀ total slice : ℚ, ∀ fuel : Nat, 0 < total → 0 < slice →
      (⌈total / slice⌉).toNat ≤ fuel →
      ∃ L : List ClipSegment,
        autoGenerateClips total slice fuel = some L ∧
        L.length = (⌈total / slice⌉).toNat ∧
        (∀ i : Nat, (hi : i < L.length) → (L.get ⟨i, hi⟩).start = (i : ℚ) * slice) ∧
        (∀ i j : Nat, (hi : i < L.length) → (hj : j < L.length) → i < j →
          (L.get ⟨i, hi⟩).start < (L.get ⟨j, hj⟩).start) ∧
        (∀ i : Nat, (hi : i < L.length) →
          0 < (L.get ⟨i, hi⟩).duration ∧ (L.get ⟨i, hi⟩).duration ≤ slice) ∧
        (∀ i : Nat, (hi : i + 1 < L.length) →
          (L.get ⟨i, Nat.lt_of_succ_lt hi⟩).start +
            (L.get ⟨i, Nat.lt_of_succ_lt hi⟩).duration = (L.get ⟨i + 1, hi⟩).start) ∧
        (∀ hne : L ≠ [], (L.getLast hne).start + (L.getLast hne).duration = total) ∧
        (∀ i : Nat, (hi : i < L.length) → (L.get ⟨i, hi⟩).title = clipTitle (i + 1))) ∧
    (∀ total slice : ℚ, ∀ fuel : Nat, total ≤ 0 →
      autoGenerateClips total slice fuel = some []) ∧
    autoGenerateClips 95 30 4 =
      some [{ start := 0, duration := 30, title := "Clip 1" },
            { start := 30, duration := 30, title := "Clip 2" },
            { start := 60, duration := 30, title := "Clip 3" },
            { start := 90, duration := 5, title := "Clip 4" }] := by
  refine ⟨?_, ?_, ?_⟩
  · intro total slice fuel ht hs hf
    have hL := autoGenerateClipsLoop_eq_closed total slice hs fuel 0 1 (by simpa using hf)
    rw [sub_zero] at hL
    set k := (⌈total / slice⌉).toNat with hkdef
    have hkpos : 0 < ⌈total / slice⌉ :=
      Int.lt_ceil.mpr (by exact_mod_cast div_pos ht hs)
    have hkZ : (k : ℤ) = ⌈total / slice⌉ := Int.toNat_of_nonneg (le_of_lt hkpos)
    have hstartlt : ∀ i : Nat, i < k → (i : ℚ) * slice < total := by
      intro i hik
      have h1 : (i : ℤ) < ⌈total / slice⌉ := by rw [← hkZ]; exact_mod_cast hik
      have h2 : (i : ℚ) < total / slice := by exact_mod_cast Int.lt_ceil.mp h1
      calc (i : ℚ) * slice < (total / slice) * slice := by
            exact mul_lt_mul_of_pos_right h2 hs
        _ = total := div_mul_cancel₀ _ (ne_of_gt hs)
    have htotle : total ≤ (k : ℚ) * slice := by
      have h1 : total / slice ≤ (k : ℚ) := by
        exact_mod_cast Int.ceil_le.mp (le_of_eq hkZ.symm)
      calc total = (total / slice) * slice := (div_mul_cancel₀ _ (ne_of_gt hs)).symm
        _ ≤ (k : ℚ) * slice := mul_le_mul_of_nonneg_right h1 (le_of_lt hs)
    refine ⟨autoSliceSegments total slice 0 1 k, hL, autoSliceSegments_length _ _ _ _ _, ?_, ?_, ?_, ?_, ?_, ?_⟩
    · intro i hi
      rw [autoSliceSegments_get]
      simp
    · intro i j hi hj hij
      rw [autoSliceSegments_get, autoSliceSegments_get]
      simp only [zero_add]
      exact mul_lt_mul_of_pos_right (by exact_mod_cast hij) hs
    · intro i hi
      have hik : i < k := by
        simpa [autoSliceSegments_length] using hi
      rw [autoSliceSegments_get]
      simp only [zero_add]
      constructor
      · exact lt_min hs (by have := hstartlt i hik; linarith)
      · exact min_le_left _ _
    · intro i hi
      have hik : i + 1 < k := by
        simpa [autoSliceSegments_length] using hi
      rw [autoSliceSegments_get, autoSliceSegments_get]
      simp only [zero_add]
      have hnext : ((i : ℚ) + 1) * slice < total := by
        have := hstartlt (i + 1) hik
        push_cast at this
        linarith
      have hmin : min slice (total - (i : ℚ) * slice) = slice := by
        apply min_eq_left
        nlinarith
      rw [hmin]
      push_cast
      ring
    · intro hne
      have hkne : k ≠ 0 := by
        intro h0
        apply hne
        have : (autoSliceSegments total slice 0 1 k).length = 0 := by
          rw [autoSliceSegments_length, h0]
        exact List.length_eq_zero.mp this
      have hlen : (autoSliceSegments total slice 0 1 k).length = k :=
        autoSliceSegments_length _ _ _ _ _
      rw [List.getLast_eq_get]
      have hidx : (autoSliceSegments total slice 0 1 k).length - 1 <
          (autoSliceSegments total slice 0 1 k).length := by
        rw [hlen]; omega
      rw [autoSliceSegments_get]
      simp only [zero_add, hlen]
      have hc1 : ((k - 1 : Nat) : ℚ) = (k : ℚ) - 1 := by
        have : 1 ≤ k := Nat.one_le_iff_ne_zero.mpr hkne
        push_cast [Nat.cast_sub this]
        ring
      rw [hc1]
      have hminr : min slice (total - ((k : ℚ) - 1) * slice) = total - ((k : ℚ) - 1) * slice := by
        apply min_eq_right
        nlinarith
      rw [hminr]
      ring
    · intro i hi
      rw [autoSliceSegments_get]
      simp only
      rw [Nat.add_comm]
  · intro total slice fuel ht
    have hct : ¬ ((0 : ℚ) < total) := not_lt.mpr ht
    cases fuel <;> simp [autoGenerateClips, autoGenerateClipsLoop, hct]
  · norm_num [autoGenerateClips, autoGenerateClipsLoop, clipTitle, min_def]
    exact ⟨rfl, rfl, rfl, rfl⟩

/-- Witness for C1, instantiated at total 95, slice 30, fuel 4. -/
theorem autoGenerateClips_partition_witness :
    ∃ L : List ClipSegment,
      autoGenerateClips 95 30 4 = some L ∧
      L.length = (⌈(95 : ℚ) / 30⌉).toNat ∧
      (∀ i : Nat, (hi : i < L.length) → (L.get ⟨i, hi⟩).start = (i : ℚ) * 30) ∧
      (∀ i j : Nat, (hi : i < L.length) → (hj : j < L.length) → i < j →
        (L.get ⟨i, hi⟩).start < (L.get ⟨j, hj⟩).start) ∧
      (∀ i : Nat, (hi : i < L.length) →
        0 < (L.get ⟨i, hi⟩).duration ∧ (L.get ⟨i, hi⟩).duration ≤ 30) ∧
      (∀ i : Nat, (hi : i + 1 < L.length) →
        (L.get ⟨i, Nat.lt_of_succ_lt hi⟩).start +
          (L.get ⟨i, Nat.lt_of_succ_lt hi⟩).duration = (L.get ⟨i + 1, hi⟩).start) ∧
      (∀ hne : L ≠ [], (L.getLast hne).start + (L.getLast hne).duration = 95) ∧
      (∀ i : Nat, (hi : i < L.length) → (L.get ⟨i, hi⟩).title = clipTitle (i + 1)) :=
  autoGenerateClips_partition.1 95 30 4 (by norm_num) (by norm_num)
    (by rw [Int.toNat_le, Int.ceil_le]; norm_num)

/-- The clip-duration input handler (ClipCreator.tsx line 330): the parsed
numeric value is stored via `setClipDuration(Number(e.target.value))` with no
programmatic clamping (the min/max attributes of the input element are not
enforced on typed values by any code). -/
def setClipDurationFromInput (v : ℚ) : ℚ := v

/-- With a non-positive slice length and a positive total, the loop guard
stays true forever: the cursor never advances past 0, so every fuel runs out. -/
lemma autoGenerateClipsLoop_none (total slice : ℚ) (hs : slice ≤ 0) (ht : 0 < total) :
    ∀ fuel : Nat, ∀ cursor : ℚ, cursor ≤ 0 → ∀ n : Nat,
      autoGenerateClipsLoop total slice fuel cursor n = none := by
  intro fuel
  induction fuel with
  | zero =>
    intro cursor hc n
    have hct : cursor < total := by linarith
    simp [autoGenerateClipsLoop, hct]
  | succ f ih =>
    intro cursor hc n
    have hct : cursor < total := by linarith
    have hmin : min slice (total - cursor) = slice := min_eq_left (by linarith)
    have hrec := ih (cursor + slice) (by linarith) (n + 1)
    simp [autoGenerateClipsLoop, hct, hmin, hrec]

/-- Claim C10: the auto-slicing loop terminates (some amount of fuel makes it
return a result) if and only if the slice length is positive or the total
duration is non-positive; with a non-positive slice and a positive total the
cursor never advances and no fuel suffices.  The duration input handler
stores the entered value without clamping it to be positive. -/
theorem autoGenerateClips_termination_iff :
    (∀ total slice : ℚ,
      (∃ fuel : Nat, ∃ r : List ClipSegment,
        autoGenerateClips total slice fuel = some r) ↔ (0 < slice ∨ total ≤ 0)) ∧
    (∀ v : ℚ, setClipDurationFromInput v = v) := by
  constructor
  · intro total slice
    constructor
    · intro hterm
      by_contra hcon
      push_neg at hcon
      obtain ⟨hslice, htotal⟩ := hcon
      obtain ⟨fuel, r, hr⟩ := hterm
      rw [autoGenerateClips,
        autoGenerateClipsLoop_none total slice hslice htotal fuel 0 (le_refl 0) 1] at hr
      exact Option.noConfusion hr
    · intro h
      rcases h with hs | ht
      · exact ⟨(⌈total / slice⌉).toNat, autoSliceSegments total slice 0 1 (⌈total / slice⌉).toNat,
          by
            have := autoGenerateClipsLoop_eq_closed total slice hs
              (⌈total / slice⌉).toNat 0 1 (by rw [sub_zero])
            rw [sub_zero] at this
            exact this⟩
      · refine ⟨0, [], ?_⟩
        have hct : ¬ ((0 : ℚ) < total) := not_lt.mpr ht
        simp [autoGenerateClips, autoGenerateClipsLoop, hct]
  · intro v
    rfl

/-! ## Per-frame draw step (`drawFrame`, ClipCreator.tsx lines 218-243)

The canvas is fixed at 720x1280 (lines 185-186).  Each tick computes a drawn
rectangle (width, height, x/y offsets) from the source video's dimensions. -/

/-- The rectangle computed by one invocation of the draw step. -/
structure DrawRect where
  drawWidth : ℚ
  drawHeight : ℚ
  offsetX : ℚ
  offsetY : ℚ
deriving DecidableEq, Repr

/-- Canvas width in pixels (ClipCreator.tsx line 185). -/
def canvasWidth : ℚ := 720

/-- Canvas height in pixels (ClipCreator.tsx line 186). -/
def canvasHeight : ℚ := 1280

/-- The geometry part of `drawFrame` (ClipCreator.tsx lines 221-237): compare
`sourceRatio = videoWidth / videoHeight` with `targetRatio = 720 / 1280`; in
the wider-source branch scale the drawn height to the canvas height and centre
horizontally, otherwise scale the drawn width to the canvas width and centre
vertically. -/
def drawFrame (sourceWidth sourceHeight : ℚ) : DrawRect :=
  let sourceRatio := sourceWidth / sourceHeight
  let targetRatio := canvasWidth / canvasHeight
  if sourceRatio > targetRatio then
    let drawHeight := canvasHeight
    let drawWidth := sourceWidth * (drawHeight / sourceHeight)
    { drawWidth := drawWidth
      drawHeight := drawHeight
      offsetX := -(drawWidth - canvasWidth) / 2
      offsetY := 0 }
  else
    let drawWidth := canvasWidth
    let drawHeight := sourceHeight * (drawWidth / sourceWidth)
    { drawWidth := drawWidth
      drawHeight := drawHeight
      offsetX := 0
      offsetY := -(drawHeight - canvasHeight) / 2 }

/-- Claim C2: for every source with positive dimensions whose aspect ratio
exceeds 720/1280, the draw step computes `drawHeight = 1280`,
`drawWidth = sourceWidth * (1280 / sourceHeight)`,
`offsetX = -(drawWidth - 720)/2`, `offsetY = 0`; in particular a 1920x1080
source yields `drawWidth = 20480/9` (about 2276), `offsetX = -7000/9`
(about -778), over exact rationals. -/
theorem drawFrame_wide_branch :
    (∀ sourceWidth sourceHeight : ℚ, 0 < sourceWidth → 0 < sourceHeight →
      sourceWidth / sourceHeight > 720 / 1280 →
      drawFrame sourceWidth sourceHeight =
        { drawWidth := sourceWidth * (1280 / sourceHeight)
          drawHeight := 1280
          offsetX := -(sourceWidth * (1280 / sourceHeight) - 720) / 2
          offsetY := 0 }) ∧
    drawFrame 1920 1080 =
      { drawWidth := 20480 / 9
        drawHeight := 1280
        offsetX := -(7000 / 9)
        offsetY := 0 } := by
  constructor
  · intro sourceWidth sourceHeight _ _ hratio
    simp only [drawFrame, canvasWidth, canvasHeight]
    rw [if_pos hratio]
  · simp only [drawFrame, canvasWidth, canvasHeight]
    norm_num

/-- Witness for C2 at the 1920x1080 source of the claim. -/
theorem drawFrame_wide_branch_witness :
    drawFrame 1920 1080 =
      { drawWidth := 1920 * (1280 / 1080)
        drawHeight := 1280
        offsetX := -(1920 * (1280 / 1080) - 720) / 2
        offsetY := 0 } :=
  drawFrame_wide_branch.1 1920 1080 (by norm_num) (by norm_num) (by norm_num)

/-- Claim C3: for every source with positive width and height, the drawn
rectangle covers the whole 720x1280 canvas and is centred: its width is at
least 720, its height at least 1280, both offsets are non-positive, and
offset plus drawn extent reaches past the far canvas edge, so the output is
a cover-fit centre-crop with no blank borders. -/
theorem drawFrame_cover_fit (sourceWidth sourceHeight : ℚ)
    (hw : 0 < sourceWidth) (hh : 0 < sourceHeight) :
    720 ≤ (drawFrame sourceWidth sourceHeight).drawWidth ∧
    1280 ≤ (drawFrame sourceWidth sourceHeight).drawHeight ∧
    (drawFrame sourceWidth sourceHeight).offsetX ≤ 0 ∧
    (drawFrame sourceWidth sourceHeight).offsetY ≤ 0 ∧
    720 ≤ (drawFrame sourceWidth sourceHeight).offsetX +
      (drawFrame sourceWidth sourceHeight).drawWidth ∧
    1280 ≤ (drawFrame sourceWidth sourceHeight).offsetY +
      (drawFrame sourceWidth sourceHeight).drawHeight := by
  simp only [drawFrame, canvasWidth, canvasHeight]
  by_cases hratio : sourceWidth / sourceHeight > 720 / 1280
  · rw [if_pos hratio]
    have hd : (720 : ℚ) ≤ sourceWidth * (1280 / sourceHeight) := by
      rw [gt_iff_lt, div_lt_div_iff₀ (by norm_num) hh] at hratio
      rw [mul_div_assoc', le_div_iff₀ hh]
      nlinarith
    refine ⟨hd, le_refl _, ?_, le_refl 0, ?_, ?_⟩ <;> simp <;> linarith
  · rw [if_neg hratio]
    push_neg at hratio
    have hd : (1280 : ℚ) ≤ sourceHeight * (720 / sourceWidth) := by
      rw [div_le_div_iff₀ hh (by norm_num)] at hratio
      rw [mul_div_assoc', le_div_iff₀ hw]
      nlinarith
    refine ⟨le_refl _, hd, le_refl 0, ?_, ?_, ?_⟩ <;> simp <;> linarith

/-- Witness for C3 at a 1920x1080 source. -/
theorem drawFrame_cover_fit_witness :
    720 ≤ (drawFrame 1920 1080).drawWidth ∧
    1280 ≤ (drawFrame 1920 1080).drawHeight ∧
    (drawFrame 1920 1080).offsetX ≤ 0 ∧
    (drawFrame 1920 1080).offsetY ≤ 0 ∧
    720 ≤ (drawFrame 1920 1080).offsetX + (drawFrame 1920 1080).drawWidth ∧
    1280 ≤ (drawFrame 1920 1080).offsetY + (drawFrame 1920 1080).drawHeight :=
  drawFrame_cover_fit 1920 1080 (by norm_num) (by norm_num)

/-! ## Export job state and the one-shot stop path
(`exportPortraitClip`, ClipCreator.tsx lines 146-287)

The observable effects of one export job are modelled as explicit state:
whether the one-shot `recordingStopped` flag is set, how often the encoder's
stop was invoked, a stop-call counter per media track, whether the source is
playing, how often it was paused, whether the `setTimeout` stop timer is
still registered, and whether an output file was produced.

Track identity matters (ClipCreator.tsx lines 191-198): the canvas capture
stream contributes its video tracks, the source element's capture stream has
its own video and audio tracks, and `composedStream` is built from the
canvas video tracks plus the *same* audio track objects of the source stream
(the `MediaStream` constructor aliases, it does not clone).  So
`composedStream.getTracks()` is the canvas video tracks plus the source
audio tracks, while `sourceStream.getTracks()` is the source video tracks
plus those same audio tracks.  The state therefore keeps one stop counter
per underlying track object, in three groups: canvas video tracks (reached
only via the composed stream), source audio tracks (reached via both
streams), and source video tracks (reached only via the source stream). -/

structure ExportJobState where
  recordingStopped : Bool
  recorderActive : Bool
  recorderStopCalls : Nat
  canvasVideoStops : List Nat
  sourceAudioStops : List Nat
  sourceVideoStops : List Nat
  sourcePlaying : Bool
  pauseCalls : Nat
  stopTimerPending : Bool
  outputProduced : Bool
deriving DecidableEq, Repr

/-- `composedStream.getTracks().forEach((track) => track.stop())`
(ClipCreator.tsx line 255): the composed stream holds the canvas video
tracks and the source's audio tracks (lines 195-198), so this pass stops
each of those. -/
def stopComposedStreamTracks (s : ExportJobState) : ExportJobState :=
  { s with
    canvasVideoStops := s.canvasVideoStops.map (· + 1)
    sourceAudioStops := s.sourceAudioStops.map (· + 1) }

/-- `sourceStream.getTracks().forEach((track) => track.stop())`
(ClipCreator.tsx line 256): the source capture stream holds the source's
video and audio tracks, so this pass stops each of those — the audio tracks
for the second time within one `stopRecording` run. -/
def stopSourceStreamTracks (s : ExportJobState) : ExportJobState :=
  { s with
    sourceAudioStops := s.sourceAudioStops.map (· + 1)
    sourceVideoStops := s.sourceVideoStops.map (· + 1) }

/-- `stopRecording` (ClipCreator.tsx lines 251-258): return immediately if the
one-shot `recordingStopped` flag is set; otherwise set it, stop the recorder,
run the composed-stream track pass, then the source-stream track pass, and
pause the source.  Nothing clears the pending stop timeout (the source never
calls `clearTimeout`). -/
def stopRecording (s : ExportJobState) : ExportJobState :=
  if s.recordingStopped then s
  else
    let s1 :=
      { s with
        recordingStopped := true
        recorderActive := false
        recorderStopCalls := s.recorderStopCalls + 1 }
    let s2 := stopSourceStreamTracks (stopComposedStreamTracks s1)
    { s2 with
      sourcePlaying := false
      pauseCalls := s2.pauseCalls + 1 }

/-- The job state right after `recorder.start()`, `sourceVideo.play()`,
`requestAnimationFrame(drawFrame)` and `setTimeout(stopRecording, ...)`
(ClipCreator.tsx lines 265-269), for a job whose canvas capture has
`canvasVideoTracks` video tracks and whose source has `sourceAudioTracks`
audio and `sourceVideoTracks` video tracks: nothing stopped yet, all stop
counters are zero, the stop timer is pending, no output produced. -/
def recordingInFlight (canvasVideoTracks sourceAudioTracks sourceVideoTracks : Nat) :
    ExportJobState :=
  { recordingStopped := false
    recorderActive := true
    recorderStopCalls := 0
    canvasVideoStops := List.replicate canvasVideoTracks 0
    sourceAudioStops := List.replicate sourceAudioTracks 0
    sourceVideoStops := List.replicate sourceVideoTracks 0
    sourcePlaying := true
    pauseCalls := 0
    stopTimerPending := true
    outputProduced := false }

/-- Finalisation after the recording promise resolves
(ClipCreator.tsx lines 271-280): once the recorder has stopped, the buffered
chunks are assembled into a blob and the download link is clicked. -/
def finalizeExport (s : ExportJobState) : ExportJobState :=
  if s.recordingStopped then { s with outputProduced := true } else s

lemma stopRecording_single_effect
    (canvasVideoTracks sourceAudioTracks sourceVideoTracks : Nat) :
    stopRecording (recordingInFlight canvasVideoTracks sourceAudioTracks sourceVideoTracks) =
      { recordingStopped := true
        recorderActive := false
        recorderStopCalls := 1
        canvasVideoStops := List.replicate canvasVideoTracks 1
        sourceAudioStops := List.replicate sourceAudioTracks 2
        sourceVideoStops := List.replicate sourceVideoTracks 1
        sourcePlaying := false
        pauseCalls := 1
        stopTimerPending := true
        outputProduced := false } := by
  simp [stopRecording, recordingInFlight, stopComposedStreamTracks,
    stopSourceStreamTracks, List.map_replicate]

/-- Claim C5 fails on the code: the composed stream aliases the source's
audio tracks (ClipCreator.tsx lines 193-198), so the single effective stop
pass of lines 255-256 invokes stop() twice on each audio track — here a job
with one canvas video track, one source audio track and one source video
track ends its first (and only effective) stop with the audio track's stop
counter at 2, not 1. -/
theorem stopRecording_audio_double_stop :
    (stopRecording (recordingInFlight 1 1 1)).sourceAudioStops = [2] ∧
    (stopRecording (recordingInFlight 1 1 1)).recorderStopCalls = 1 := by
  rw [stopRecording_single_effect]
  exact ⟨rfl, rfl⟩

/-- Claim C5, amended: stopping one export job is idempotent at the job
level.  A stop on an already-stopped state is a no-op; two stops equal one;
any sequence of at least one stop on an in-flight job equals a single stop;
and that single effective stop invokes the encoder stop exactly once, stops
each canvas video track and each source video track exactly once, pauses the
source exactly once — but, because the composed stream aliases the source's
audio tracks, invokes stop() exactly twice on each audio track (once via the
composed stream's track pass and once via the source stream's). -/
theorem stopRecording_one_shot :
    (∀ s : ExportJobState, s.recordingStopped = true → stopRecording s = s) ∧
    (∀ s : ExportJobState, stopRecording (stopRecording s) = stopRecording s) ∧
    (∀ canvasVideoTracks sourceAudioTracks sourceVideoTracks n : Nat, 1 ≤ n →
      stopRecording^[n]
          (recordingInFlight canvasVideoTracks sourceAudioTracks sourceVideoTracks) =
        stopRecording
          (recordingInFlight canvasVideoTracks sourceAudioTracks sourceVideoTracks)) ∧
    (∀ canvasVideoTracks sourceAudioTracks sourceVideoTracks : Nat,
      (stopRecording (recordingInFlight canvasVideoTracks sourceAudioTracks
        sourceVideoTracks)).recorderStopCalls = 1 ∧
      (∀ c ∈ (stopRecording (recordingInFlight canvasVideoTracks sourceAudioTracks
        sourceVideoTracks)).canvasVideoStops, c = 1) ∧
      (∀ c ∈ (stopRecording (recordingInFlight canvasVideoTracks sourceAudioTracks
        sourceVideoTracks)).sourceAudioStops, c = 2) ∧
      (∀ c ∈ (stopRecording (recordingInFlight canvasVideoTracks sourceAudioTracks
        sourceVideoTracks)).sourceVideoStops, c = 1) ∧
      (stopRecording (recordingInFlight canvasVideoTracks sourceAudioTracks
        sourceVideoTracks)).pauseCalls = 1 ∧
      (stopRecording (recordingInFlight canvasVideoTracks sourceAudioTracks
        sourceVideoTracks)).sourcePlaying = false) := by
  have hstopped : ∀ s : ExportJobState, s.recordingStopped = true → stopRecording s = s := by
    intro s h
    simp [stopRecording, h]
  have hidem : ∀ s : ExportJobState, stopRecording (stopRecording s) = stopRecording s := by
    intro s
    by_cases h : s.recordingStopped
    · simp [stopRecording, h]
    · simp [stopRecording, stopComposedStreamTracks, stopSourceStreamTracks, h]
  refine ⟨hstopped, hidem, ?_, ?_⟩
  · intro cv sa sv n hn
    induction n with
    | zero => omega
    | succ m ih =>
      cases Nat.eq_zero_or_pos m with
      | inl h0 => subst h0; simp
      | inr hpos =>
        rw [Function.iterate_succ_apply', ih hpos, hidem]
  · intro cv sa sv
    rw [stopRecording_single_effect]
    refine ⟨rfl, ?_, ?_, ?_, rfl, rfl⟩
    · intro c hc
      exact List.eq_of_mem_replicate hc
    · intro c hc
      exact List.eq_of_mem_replicate hc
    · intro c hc
      exact List.eq_of_mem_replicate hc

/-- Witness for the amended C5: two stop invocations on an in-flight job
with one canvas video, one source audio and one source video track equal a
single stop. -/
theorem stopRecording_one_shot_witness :
    stopRecording^[2] (recordingInFlight 1 1 1) = stopRecording (recordingInFlight 1 1 1) :=
  stopRecording_one_shot.2.2.1 1 1 1 2 (by norm_num)

/-! ## The automatic stop timer (ClipCreator.tsx line 269) -/

/-- Delay in milliseconds handed to the stop timer:
`setTimeout(stopRecording, clip.duration * 1000)`. -/
def stopTimerDelayMs (duration : ℚ) : ℚ := duration * 1000

/-- Absolute fire time of the stop timer: it is registered immediately after
`recorder.start()` (lines 265-269), so it fires its delay after the
recording-start instant `startMs`. -/
def stopTimerFireTime (startMs duration : ℚ) : ℚ :=
  startMs + stopTimerDelayMs duration

/-- Claim C4: the automatic stop trigger is scheduled `duration * 1000`
milliseconds after recording starts, so the elapsed wall-clock recording time
at the trigger equals the clip's declared duration in seconds; a clip of
duration 10 has its timer fire 10000 ms, i.e. 10 s, after recording begins. -/
theorem stopTimer_elapsed_eq_duration :
    (∀ startMs duration : ℚ,
      stopTimerFireTime startMs duration - startMs = duration * 1000) ∧
    (∀ duration : ℚ, stopTimerDelayMs duration / 1000 = duration) ∧
    stopTimerDelayMs 10 = 10000 := by
  refine ⟨?_, ?_, ?_⟩
  · intro startMs duration
    simp [stopTimerFireTime, stopTimerDelayMs]
  · intro duration
    rw [stopTimerDelayMs]
    field_simp
  · norm_num [stopTimerDelayMs]

/-! ## Capability checks before recording
(`exportPortraitClip`, ClipCreator.tsx lines 146-214) -/

/-- The descending-preference container/codec candidates
(ClipCreator.tsx lines 200-204). -/
def preferredMimeTypes : List String :=
  ["video/webm;codecs=vp9", "video/webm;codecs=vp8", "video/webm"]

/-- The environment the export invocation probes: is the video URL resolved,
does the window offer MediaRecorder, does the metadata load succeed, does the
media element offer captureStream, is a 2d canvas context available, and
which mime types `MediaRecorder.isTypeSupported` accepts. -/
structure ExportEnv where
  videoUrlReady : Bool
  hasMediaRecorder : Bool
  metadataLoads : Bool
  hasCaptureStream : Bool
  canvasContextAvailable : Bool
  isTypeSupported : String → Bool

/-- Failure modes of the pre-recording phase, in source order: missing video
URL (line 147), missing MediaRecorder (line 152), metadata load failure
(line 171), missing captureStream (line 179), missing canvas context
(line 189), no supported container (line 208). -/
inductive ExportFailure where
  | videoNotReady
  | mediaRecorderUnsupported
  | mediaLoadError
  | captureStreamUnsupported
  | canvasUnsupported
  | mimeTypeUnsupported
deriving DecidableEq, Repr

/-- A successfully started recording: the negotiated mime type and the chunk
buffer, empty at start (line 215). -/
structure RecordingStart where
  mimeType : String
  chunks : List Nat
deriving DecidableEq, Repr

/-- The pre-recording phase of `exportPortraitClip` (ClipCreator.tsx lines
146-214), with the checks in source order; the recorder is constructed and
started only after every check passes and a mime type was negotiated via
`preferredMimeTypes.find(...)` (line 206). -/
def exportPreflight (env : ExportEnv) : Except ExportFailure RecordingStart :=
  if !env.videoUrlReady then .error .videoNotReady
  else if !env.hasMediaRecorder then .error .mediaRecorderUnsupported
  else if !env.metadataLoads then .error .mediaLoadError
  else if !env.hasCaptureStream then .error .captureStreamUnsupported
  else if !env.canvasContextAvailable then .error .canvasUnsupported
  else
    match preferredMimeTypes.find? env.isTypeSupported with
    | none => .error .mimeTypeUnsupported
    | some m => .ok { mimeType := m, chunks := [] }

lemma exportPreflight_ok_inversion (env : ExportEnv) (r : RecordingStart)
    (h : exportPreflight env = .ok r) :
    env.videoUrlReady = true ∧ env.hasMediaRecorder = true ∧
    env.metadataLoads = true ∧ env.hasCaptureStream = true ∧
    env.canvasContextAvailable = true ∧
    preferredMimeTypes.find? env.isTypeSupported = some r.mimeType ∧
    r.chunks = [] := by
  unfold exportPreflight at h
  split_ifs at h with h1 h2 h3 h4 h5
  cases hfind : preferredMimeTypes.find? env.isTypeSupported with
  | none => rw [hfind] at h; exact absurd h (by simp)
  | some m =>
    rw [hfind] at h
    simp only [Except.ok.injEq] at h
    subst h
    simp only [Bool.not_eq_true', Bool.not_eq_false] at h1 h2 h3 h4 h5
    exact ⟨h1, h2, h3, h4, h5, rfl, rfl⟩

/-- Claim C6: in an environment lacking a required capability (no
MediaRecorder, no captureStream, or none of the candidate containers
supported) the export fails with an error before any recording starts — no
`RecordingStart` is produced; the candidates are probed in the fixed
descending-preference order, and even a successful start begins with an empty
chunk buffer. -/
theorem exportPreflight_fails_without_capability :
    (∀ env : ExportEnv,
      (env.hasMediaRecorder = false ∨ env.hasCaptureStream = false ∨
        (∀ t ∈ preferredMimeTypes, env.isTypeSupported t = false)) →
      ∃ e : ExportFailure, exportPreflight env = Except.error e) ∧
    preferredMimeTypes =
      ["video/webm;codecs=vp9", "video/webm;codecs=vp8", "video/webm"] ∧
    (∀ env : ExportEnv, ∀ r : RecordingStart, exportPreflight env = Except.ok r →
      preferredMimeTypes.find? env.isTypeSupported = some r.mimeType ∧
      r.chunks = []) := by
  refine ⟨?_, rfl, ?_⟩
  · intro env h
    cases hres : exportPreflight env with
    | error e => exact ⟨e, rfl⟩
    | ok r =>
      obtain ⟨_, hmr, _, hcs, _, hfind, _⟩ := exportPreflight_ok_inversion env r hres
      rcases h with h | h | h
      · rw [hmr] at h
        exact absurd h (by simp)
      · rw [hcs] at h
        exact absurd h (by simp)
      · have hmem := List.mem_of_find?_eq_some hfind
        have hsup := List.find?_some hfind
        rw [h r.mimeType hmem] at hsup
        exact absurd hsup (by simp)
  · intro env r h
    obtain ⟨_, _, _, _, _, hfind, hchunks⟩ := exportPreflight_ok_inversion env r h
    exact ⟨hfind, hchunks⟩

/-- Witness for C6: an environment whose window lacks MediaRecorder fails the
preflight. -/
theorem exportPreflight_fails_without_capability_witness :
    ∃ e : ExportFailure,
      exportPreflight
        { videoUrlReady := true
          hasMediaRecorder := false
          metadataLoads := true
          hasCaptureStream := true
          canvasContextAvailable := true
          isTypeSupported := fun _ => true } = Except.error e :=
  exportPreflight_fails_without_capability.1 _ (Or.inl rfl)

/-! ## Closing the view during an export (ClipCreator.tsx lines 295-305)

The close button invokes the parent-supplied `onClose` callback only; the
component registers no unmount cleanup for the export, and no code path on
close reaches `stopRecording`, clears the stop timeout, or touches the
in-flight job.  Closing therefore leaves the job state unchanged. -/

/-- Effect of closing the containing view on an in-flight export job: none
(there is no cancellation path in the source). -/
def closeView (s : ExportJobState) : ExportJobState := s

/-- Claim C9 fails on the code: closing the view during recording does not
trigger the stop path.  The job state is unchanged, the one-shot stop flag
stays unset, no track is stopped, the stop timer stays pending, and when that
dangling timer later fires the job still finalises and produces the output
file instead of discarding it. -/
theorem closeView_does_not_cancel
    (canvasVideoTracks sourceAudioTracks sourceVideoTracks : Nat) :
    closeView (recordingInFlight canvasVideoTracks sourceAudioTracks sourceVideoTracks) =
      recordingInFlight canvasVideoTracks sourceAudioTracks sourceVideoTracks ∧
    (closeView (recordingInFlight canvasVideoTracks sourceAudioTracks
      sourceVideoTracks)).recordingStopped = false ∧
    (closeView (recordingInFlight canvasVideoTracks sourceAudioTracks
      sourceVideoTracks)).stopTimerPending = true ∧
    (∀ c ∈ (closeView (recordingInFlight canvasVideoTracks sourceAudioTracks
      sourceVideoTracks)).canvasVideoStops, c = 0) ∧
    (∀ c ∈ (closeView (recordingInFlight canvasVideoTracks sourceAudioTracks
      sourceVideoTracks)).sourceAudioStops, c = 0) ∧
    (∀ c ∈ (closeView (recordingInFlight canvasVideoTracks sourceAudioTracks
      sourceVideoTracks)).sourceVideoStops, c = 0) ∧
    (finalizeExport (stopRecording (closeView (recordingInFlight canvasVideoTracks
      sourceAudioTracks sourceVideoTracks)))).outputProduced = true := by
  refine ⟨rfl, rfl, rfl, ?_, ?_, ?_, ?_⟩
  · intro c hc
    exact List.eq_of_mem_replicate hc
  · intro c hc
    exact List.eq_of_mem_replicate hc
  · intro c hc
    exact List.eq_of_mem_replicate hc
  · simp [closeView, stopRecording, recordingInFlight, finalizeExport,
      stopComposedStreamTracks, stopSourceStreamTracks]

/-! ## The in-flight export flag and the export buttons
(`exportingClipId`, ClipCreator.tsx lines 22, 160, 285, 439-445)

`exportingClipId` is a single `string | null` slot: set to the clip's id when
its export starts (line 160) and reset to null in the `finally` of any export
(line 285).  The export button of clip `c` is disabled exactly when
`exportingClipId === c.id` (line 441), so clicking it is the only guarded
entry into `exportPortraitClip`.  A session is modelled as a fold of click
and job-completion events over this state. -/

structure SessionState where
  exportingClipId : Option String
  activeJobs : List String
deriving DecidableEq, Repr

inductive UiEvent where
  | clickExport (clipId : String)
  | jobFinish (clipId : String)
deriving DecidableEq, Repr

/-- The export button of a clip is disabled iff `exportingClipId` equals that
clip's id (ClipCreator.tsx line 441). -/
def exportDisabled (s : SessionState) (clipId : String) : Bool :=
  decide (s.exportingClipId = some clipId)

/-- One session step: a click on a disabled button does nothing; a click on
an enabled button starts a job and overwrites `exportingClipId` with this
clip's id (line 160); a finishing job resets `exportingClipId` to null
unconditionally in its `finally` (line 285). -/
def stepUi (s : SessionState) : UiEvent → SessionState
  | .clickExport c =>
    if exportDisabled s c then s
    else { exportingClipId := some c, activeJobs := c :: s.activeJobs }
  | .jobFinish c =>
    if c ∈ s.activeJobs then
      { exportingClipId := none, activeJobs := s.activeJobs.erase c }
    else s

/-- The initial session: no flag set, no job running (line 22). -/
def initSession : SessionState :=
  { exportingClipId := none, activeJobs := [] }

/-- A session run from the initial state. -/
def runUi (events : List UiEvent) : SessionState :=
  events.foldl stepUi initSession

/-- Claim C8 fails on the code: the busy flag is a single slot, so
interleaving exports of two distinct clips re-enables the first clip's
button while its job is still in flight.  After the click sequence
click A, click B, click A every click is accepted and two export jobs run
concurrently against clip A. -/
theorem exportingClipId_counterexample :
    runUi [UiEvent.clickExport "A", UiEvent.clickExport "B", UiEvent.clickExport "A"] =
      { exportingClipId := some "A", activeJobs := ["A", "B", "A"] } ∧
    ((runUi [UiEvent.clickExport "A", UiEvent.clickExport "B",
        UiEvent.clickExport "A"]).activeJobs.count "A") = 2 := by
  constructor <;> rfl

lemma singleClip_session_inv (c : String) :
    ∀ events : List UiEvent,
      (∀ e ∈ events, e = UiEvent.clickExport c ∨ e = UiEvent.jobFinish c) →
      ∀ s : SessionState,
        (s = { exportingClipId := none, activeJobs := [] } ∨
         s = { exportingClipId := some c, activeJobs := [c] }) →
        (events.foldl stepUi s = { exportingClipId := none, activeJobs := [] } ∨
         events.foldl stepUi s = { exportingClipId := some c, activeJobs := [c] }) := by
  intro events
  induction events with
  | nil =>
    intro _ s hs
    simpa using hs
  | cons e es ih =>
    intro hall s hs
    have he := hall e (List.mem_cons_self e es)
    have hrest : ∀ x ∈ es, x = UiEvent.clickExport c ∨ x = UiEvent.jobFinish c :=
      fun x hx => hall x (List.mem_cons_of_mem e hx)
    rw [List.foldl_cons]
    apply ih hrest
    rcases hs with h | h <;> rcases he with he | he <;> subst h <;> subst he <;>
      simp [stepUi, exportDisabled]

/-- Claim C8, amended: while `exportingClipId` equals a clip's id, a further
export invocation against that same clip is rejected (its button is disabled
and the click leaves the session unchanged), and in any session whose events
all concern a single clip at most one export job for it is ever in flight;
the busy flag does not however prevent concurrent same-clip jobs once exports
of distinct clips interleave. -/
theorem exportingClipId_busy_guard :
    (∀ s : SessionState, ∀ c : String, s.exportingClipId = some c →
      stepUi s (UiEvent.clickExport c) = s) ∧
    (∀ c : String, ∀ events : List UiEvent,
      (∀ e ∈ events, e = UiEvent.clickExport c ∨ e = UiEvent.jobFinish c) →
      ((runUi events).activeJobs.count c) ≤ 1) := by
  constructor
  · intro s c h
    simp [stepUi, exportDisabled, h]
  · intro c events hall
    have hinv := singleClip_session_inv c events hall initSession (Or.inl rfl)
    rw [runUi]
    rcases hinv with h | h <;> rw [h] <;> simp

/-- Witness for the amended C8: with the flag set to clip A and its job in
flight, a second click on clip A's export button leaves the session
unchanged, and a session of three clicks on clip A alone never has two jobs
for it. -/
theorem exportingClipId_busy_guard_witness :
    stepUi { exportingClipId := some "A", activeJobs := ["A"] }
      (UiEvent.clickExport "A") =
      { exportingClipId := some "A", activeJobs := ["A"] } ∧
    ((runUi [UiEvent.clickExport "A", UiEvent.clickExport "A",
        UiEvent.clickExport "A"]).activeJobs.count "A") ≤ 1 :=
  ⟨exportingClipId_busy_guard.1 _ "A" rfl,
   exportingClipId_busy_guard.2 "A" _
     (by intro e he; simp at he; exact Or.inl he)⟩

/-! ## Confirming drafts (`generateClips`, ClipCreator.tsx lines 98-139)

`generateClips` validates the draft list before anything else: an empty list
or any draft with non-positive duration aborts with an alert, before the
`supabase.auth.getUser()` lookup and before any `insert`.  External results —
the current user, whether the concurrent inserts succeed, and the refreshed
persisted list — are passed in as parameters. -/

/-- A persisted `video_clips` row as inserted at ClipCreator.tsx
lines 116-124. -/
structure VideoClipRow where
  video_id : String
  title : String
  file_path : String
  start_time : ℚ
  duration : ℚ
deriving DecidableEq, Repr

/-- A call against the external collaborators: the auth lookup
(line 112) or one record insert (lines 116-124). -/
inductive PersistCall where
  | authLookup
  | insertClip (row : VideoClipRow)
deriving DecidableEq, Repr

/-- The component state `generateClips` reads and writes: the draft list
`clips` and the persisted list `generatedClips`. -/
structure PlannerState where
  clips : List ClipSegment
  generatedClips : List VideoClipRow
deriving DecidableEq, Repr

/-- Outcome of one `generateClips` invocation. -/
inductive ConfirmResult where
  | validationError (message : String)
  | failure
  | success
deriving DecidableEq, Repr

/-- `generateClips` (ClipCreator.tsx lines 98-139): validate, then look up
the user, then insert one row per draft; on success clear the drafts and
refresh the persisted list, on any failure keep the state and report failure.
Returns the new state, the calls issued to the collaborators in order, and
the outcome. -/
def generateClips (videoId filePath : String) (st : PlannerState)
    (user : Option String) (insertsSucceed : Bool)
    (refreshed : List VideoClipRow) :
    PlannerState × List PersistCall × ConfirmResult :=
  if st.clips.length = 0 then
    (st, [], .validationError "Please add some clips first")
  else if st.clips.any (fun c => decide (c.duration ≤ 0)) then
    (st, [], .validationError "Clip duration must be greater than 0 seconds")
  else
    match user with
    | none => (st, [.authLookup], .failure)
    | some _ =>
      let calls := st.clips.map (fun c => PersistCall.insertClip
        { video_id := videoId
          title := c.title
          file_path := filePath
          start_time := c.start
          duration := c.duration })
      if insertsSucceed then
        ({ clips := [], generatedClips := refreshed },
          PersistCall.authLookup :: calls, .success)
      else
        (st, PersistCall.authLookup :: calls, .failure)

/-- Claim C7: confirming an empty draft list, and confirming a draft list
containing a draft with non-positive duration, both fail with a validation
error and issue no collaborator calls at all — no insert, no auth lookup —
leaving the draft and persisted lists unchanged. -/
theorem generateClips_validation :
    (∀ videoId filePath : String, ∀ st : PlannerState, ∀ user : Option String,
      ∀ insertsSucceed : Bool, ∀ refreshed : List VideoClipRow,
      st.clips = [] →
      generateClips videoId filePath st user insertsSucceed refreshed =
        (st, [], ConfirmResult.validationError "Please add some clips first")) ∧
    (∀ videoId filePath : String, ∀ st : PlannerState, ∀ user : Option String,
      ∀ insertsSucceed : Bool, ∀ refreshed : List VideoClipRow,
      (∃ c ∈ st.clips, c.duration ≤ 0) →
      generateClips videoId filePath st user insertsSucceed refreshed =
        (st, [],
          ConfirmResult.validationError
            "Clip duration must be greater than 0 seconds")) := by
  constructor
  · intro videoId filePath st user insertsSucceed refreshed h
    simp [generateClips, h]
  · intro videoId filePath st user insertsSucceed refreshed h
    obtain ⟨c, hc, hd⟩ := h
    have hne : st.clips.length ≠ 0 := by
      intro h0
      rw [List.length_eq_zero.mp h0] at hc
      exact absurd hc (List.not_mem_nil c)
    have hany : st.clips.any (fun c => decide (c.duration ≤ 0)) = true := by
      rw [List.any_eq_true]
      exact ⟨c, hc, by simpa using hd⟩
    simp [generateClips, hne, hany]

/-- Witness for C7: the empty draft list and a singleton draft of duration 0
both abort with a validation error, unchanged state and no calls. -/
theorem generateClips_validation_witness :
    generateClips "v1" "path" { clips := [], generatedClips := [] } none false [] =
      ({ clips := [], generatedClips := [] }, [],
        ConfirmResult.validationError "Please add some clips first") ∧
    generateClips "v1" "path"
        { clips := [{ start := 0, duration := 0, title := "Clip 1" }],
          generatedClips := [] } (some "user") true [] =
      ({ clips := [{ start := 0, duration := 0, title := "Clip 1" }],
          generatedClips := [] }, [],
        ConfirmResult.validationError
          "Clip duration must be greater than 0 seconds") :=
  ⟨generateClips_validation.1 "v1" "path" _ none false [] rfl,
   generateClips_validation.2 "v1" "path" _ (some "user") true []
     ⟨{ start := 0, duration := 0, title := "Clip 1" }, by simp, by norm_num⟩⟩

end VideoCliper
